import Mathlib

/-!
Verification development for the Zen MCP server HTTP transport
(`http_transport.py`) and the Perplexity provider
(`providers/perplexity_provider.py`).

The Python code is shallowly embedded: JSON values are an inductive type,
`json.dumps` is a Lean function mirroring the CPython serializer with its
default options, dictionaries are association lists with Python dict
assignment semantics (`listSet`), and the request handlers are explicit
state-passing functions.  External collaborators (the registered tool
handlers, `str()` formatting of arbitrary objects, `int()` parsing, the
model restriction service) are parameters of the embedding, so every
theorem quantifies over their behaviour.
-/

namespace ZenMCP

/-- JSON values, as produced by `request.json()` and consumed by
`json.dumps`.  Python `None`/`True`/`False`/`int`/`str`/`list`/`dict`
map onto the six constructors. -/
inductive Json where
  | null
  | bool (b : Bool)
  | num (n : Int)
  | str (s : String)
  | arr (elems : List Json)
  | obj (fields : List (String × Json))

/-- Lowercase hexadecimal digit, as used by the CPython JSON encoder. -/
def hexDigit (n : Nat) : Char :=
  if n < 10 then Char.ofNat (48 + n) else Char.ofNat (87 + n)

/-- Four lowercase hex digits (the XXXX of a JSON \uXXXX escape). -/
def hex4 (n : Nat) : String :=
  String.mk [hexDigit (n / 4096 % 16), hexDigit (n / 256 % 16),
             hexDigit (n / 16 % 16), hexDigit (n % 16)]

/-- Escape of one character in a JSON string literal, following CPython
`json.dumps` with its default `ensure_ascii=True`: the two-character
shortcuts, `\uXXXX` for other control and non-ASCII characters, and a
surrogate pair for characters beyond the basic multilingual plane. -/
def escapeChar (c : Char) : String :=
  if c = '"' then "\\\""
  else if c = '\\' then "\\\\"
  else if c = '\n' then "\\n"
  else if c = '\r' then "\\r"
  else if c = '\t' then "\\t"
  else if c.toNat = 8 then "\\b"
  else if c.toNat = 12 then "\\f"
  else if c.toNat < 32 ∨ c.toNat > 126 then
    if c.toNat ≤ 65535 then "\\u" ++ hex4 c.toNat
    else
      let v := c.toNat - 65536
      "\\u" ++ hex4 (55296 + v / 1024) ++ "\\u" ++ hex4 (56320 + v % 1024)
  else String.singleton c

/-- A JSON string literal: quotes around the escaped characters. -/
def dumpString (s : String) : String :=
  "\"" ++ String.join (s.data.map escapeChar) ++ "\""

mutual

/-- Embedding of `json.dumps` with CPython defaults: separators
`", "` and `": "`, `ensure_ascii=True`, insertion order preserved. -/
def dumps : Json → String
  | .null => "null"
  | .bool true => "true"
  | .bool false => "false"
  | .num n => toString n
  | .str s => dumpString s
  | .arr xs => "[" ++ dumpsArr xs ++ "]"
  | .obj fs => "\x7b" ++ dumpsObj fs ++ "\x7d"

/-- Comma-separated serialization of a JSON array body. -/
def dumpsArr : List Json → String
  | [] => ""
  | [x] => dumps x
  | x :: y :: xs => dumps x ++ ", " ++ dumpsArr (y :: xs)

/-- Comma-separated serialization of a JSON object body. -/
def dumpsObj : List (String × Json) → String
  | [] => ""
  | [(k, v)] => dumpString k ++ ": " ++ dumps v
  | (k, v) :: y :: xs => dumpString k ++ ": " ++ dumps v ++ ", " ++ dumpsObj (y :: xs)

end

/-- Python substring test (`needle in hay` for `str`), on character lists. -/
def listIsInfixOf (needle : List Char) : List Char → Bool
  | [] => needle.isEmpty
  | c :: t => needle.isPrefixOf (c :: t) || listIsInfixOf needle t

/-- Python substring containment: `strContains hay needle` is
`needle in hay`. -/
def strContains (hay needle : String) : Bool :=
  listIsInfixOf needle.data hay.data

/-- Clamp one bound of a Python slice `xs[a:b]` to `0..n`. -/
def pySliceClamp (n : Nat) (i : Int) : Nat :=
  if i < 0 then (max (n + i) 0).toNat else min i.toNat n

/-- Python list slicing `xs[start:stop]` (step 1), including the
negative-index and out-of-range conventions. -/
def pySlice {α : Type} (xs : List α) (start stop : Int) : List α :=
  let n := xs.length
  let s := pySliceClamp n start
  let e := pySliceClamp n stop
  (xs.drop s).take (e - s)

/-- Python dict assignment `d[k] = v` on an association list: replace the
value in place if the key exists, append otherwise. -/
def listSet {α : Type} (l : List (String × α)) (k : String) (v : α) : List (String × α) :=
  match l with
  | [] => [(k, v)]
  | (k2, v2) :: t => if k2 = k then (k, v) :: t else (k2, v2) :: listSet t k v

/-- Chunking configuration constant: default chunk size (KB). -/
def DEFAULT_CHUNK_SIZE_KB : Int := 20

/-- Chunking configuration constant: minimum viable chunk size (KB). -/
def MIN_CHUNK_SIZE_KB : Int := 8

/-- Chunking configuration constant: maximum chunk size (KB). -/
def MAX_CHUNK_SIZE_KB : Int := 50

/-- An MCP `Tool` object as seen by the transport: the three attributes
read by `http_transport.py`. -/
structure ToolInfo where
  name : String
  description : String
  inputSchema : Json

/-- Input element of `_chunk_tools_response`: either a `Tool` object
(`hasattr(tool, "name")` holds) or an already-built dictionary. -/
inductive ChunkInput where
  | tool (t : ToolInfo)
  | dict (d : Json)

/-- The `tool_data` computed for one element of the tools list inside
`_chunk_tools_response`. -/
def toolDataOf : ChunkInput → Json
  | .tool t => Json.obj [("name", Json.str t.name), ("description", Json.str t.description),
                         ("inputSchema", t.inputSchema)]
  | .dict d => d

/-- A JSON-RPC result frame `jsonrpc`/`id`/`result`, the shape built by
every success branch of `_handle_mcp_message`. -/
def respFrame (mid : Json) (result : Json) : Json :=
  Json.obj [("jsonrpc", Json.str "2.0"), ("id", mid), ("result", result)]

/-- A JSON-RPC error frame `jsonrpc`/`id`/`error` with code and message. -/
def errorFrame (mid : Json) (code : Int) (msg : String) : Json :=
  Json.obj [("jsonrpc", Json.str "2.0"), ("id", mid),
            ("error", Json.obj [("code", Json.num code), ("message", Json.str msg)])]

/-- One chunk response of `_chunk_tools_response`: a complete JSON-RPC
response whose result carries a subset of the tools. -/
def chunkResponse (mid : Json) (tools : List Json) : Json :=
  respFrame mid (Json.obj [("tools", Json.arr tools)])

/-- The accumulation loop of `_chunk_tools_response`, returning the list
of tool groups.  `current` and `size` are the running chunk and its
accumulated tool size; a group is emitted when adding the next tool would
overflow the chunk size and the running chunk is non-empty. -/
def chunkToolsGo (chunkSizeBytes baseSize : Int) :
    List ChunkInput → List Json → Int → List (List Json)
  | [], current, _ => if current.isEmpty then [] else [current]
  | t :: rest, current, size =>
      let toolData := toolDataOf t
      let toolSize : Int := (dumps toolData).length
      if size + toolSize + baseSize > chunkSizeBytes ∧ ¬ current.isEmpty then
        current :: chunkToolsGo chunkSizeBytes baseSize rest [toolData] toolSize
      else
        chunkToolsGo chunkSizeBytes baseSize rest (current ++ [toolData]) (size + toolSize)

/-- Embedding of `HTTPTransport._chunk_tools_response`: split a tools list
into complete JSON-RPC responses each holding a subset of the tools. -/
def chunkToolsResponse (tools : List ChunkInput) (mid : Json) (chunkSizeKb : Int) : List Json :=
  let chunkSizeBytes := chunkSizeKb * 1024
  let baseSize : Int := (dumps (chunkResponse mid [])).length
  (chunkToolsGo chunkSizeBytes baseSize tools [] 0).map (fun c => chunkResponse mid c)

/-- Environment of external collaborators of the transport.  The four
`server.py` handlers are out of scope and appear as their observable
results (already `model_dump`-ed to JSON where the transport does so);
`strOf` is Python `str()` as used by f-string interpolation, `pyInt` is
Python `int()` on strings (`none` when it raises), and the `*ErrMsg`
fields are the `str()` of the runtime exceptions raised by attribute
access, `in`, and subscripting on values of the wrong type. -/
structure Env where
  listTools : Except String (List ToolInfo)
  callTool : Option Json → Json → Except String (List Json)
  listPrompts : Except String (List Json)
  getPrompt : Option Json → Json → Except String Json
  version : String
  strOf : Option Json → String
  pyInt : String → Option Int
  attrErrMsg : Json → String
  inOpTypeErrMsg : Json → String
  subscriptErrMsg : Json → String
  keyErrMsg : String → String

/-- A session dictionary (`self.sessions[sid]`). -/
abbrev Session := List (String × Json)

/-- The transport session map `self.sessions`. -/
abbrev SessionMap := List (String × Session)

/-- Python `==` between an object and a string literal: true exactly when
the object is that string. -/
def jsonEqStr (v : Option Json) (s : String) : Bool :=
  match v with
  | some (Json.str t) => t = s
  | _ => false

/-- The dispatch test `method == "..."` of the if/elif chain. -/
def methodIs (method : Option Json) (s : String) : Bool :=
  jsonEqStr method s

/-- Python `key in container` for the container shapes JSON can produce:
key membership for dicts, element equality for lists, substring test for
strings, `TypeError` otherwise. -/
def pyInOp (env : Env) (key : String) (container : Json) : Except String Bool :=
  match container with
  | Json.obj fs => .ok (fs.any (fun kv => kv.1 = key))
  | Json.arr xs => .ok (xs.any (fun x => jsonEqStr (some x) key))
  | Json.str s => .ok (strContains s key)
  | other => .error (env.inOpTypeErrMsg other)

/-- Python `container[key]` with a string key: dict lookup (`KeyError`
when missing), `TypeError` for the other shapes. -/
def pySubscript (env : Env) (container : Json) (key : String) : Except String Json :=
  match container with
  | Json.obj fs =>
      match fs.lookup key with
      | some v => .ok v
      | none => .error (env.keyErrMsg key)
  | other => .error (env.subscriptErrMsg other)

/-- The twelve workflow tools listed in the `tools/call` branch. -/
def workflowToolNames : List String :=
  ["thinkdeep", "planner", "consensus", "codereview", "precommit", "debug",
   "secaudit", "docgen", "analyze", "refactor", "tracer", "testgen"]

/-- The membership test `tool_name in [...]` over the workflow tools. -/
def isWorkflowTool (toolName : Option Json) : Bool :=
  workflowToolNames.any (fun w => jsonEqStr toolName w)

/-- The `zen_arguments` dictionary built when the prompt-mapping branch is
taken: the prompt, `model="auto"`, and the workflow-step fields for
workflow tools (`dict.update` appends the new keys in order). -/
def zenMappedArguments (toolName : Option Json) (promptVal : Json) : Json :=
  let base := [("prompt", promptVal), ("model", Json.str "auto")]
  if isWorkflowTool toolName then
    Json.obj (base ++ [("step", promptVal), ("step_number", Json.num 1),
                       ("total_steps", Json.num 3), ("next_step_required", Json.bool false),
                       ("findings", Json.str "Starting analysis based on user request")])
  else
    Json.obj base

/-- Truncation of a tool description in compact view:
`description[:200] + "..."` when longer than 200 characters. -/
def truncateDescription (d : String) : String :=
  if d.length > 200 then d.take 200 ++ "..." else d

/-- The fixed simplified input schema served in compact view. -/
def simplifiedSchema : Json :=
  Json.obj [("type", Json.str "object"),
            ("properties", Json.obj [("prompt",
              Json.obj [("type", Json.str "string"),
                        ("description", Json.str "Your request or question")])]),
            ("required", Json.arr [Json.str "prompt"])]

/-- Full-view serialization of one tool. -/
def fullToolJson (t : ToolInfo) : Json :=
  Json.obj [("name", Json.str t.name), ("description", Json.str t.description),
            ("inputSchema", t.inputSchema)]

/-- Compact-view serialization of one tool. -/
def simplifiedToolJson (t : ToolInfo) : Json :=
  Json.obj [("name", Json.str t.name),
            ("description", Json.str (truncateDescription t.description)),
            ("inputSchema", simplifiedSchema)]

/-- The pagination fallback of the `tools/list` branch:
`page`/`limit` query parameters, `limit` capped at 1000, any `int()`
failure keeping the whole list. -/
def paginateTools (pyInt : String → Option Int) (qp : List (String × String))
    (tools : List ToolInfo) : List ToolInfo :=
  match pyInt ((qp.lookup "page").getD "1") with
  | none => tools
  | some page =>
      match pyInt ((qp.lookup "limit").getD "50") with
      | none => tools
      | some rawLimit =>
          let limit := min rawLimit 1000
          let startIdx := (page - 1) * limit
          pySlice tools startIdx (startIdx + limit)

/-- Tool selection of the `tools/list` branch: selective loading by the
`ids` query parameter when it is truthy, pagination otherwise. -/
def selectTools (pyInt : String → Option Int) (qp : List (String × String))
    (tools : List ToolInfo) : List ToolInfo :=
  match qp.lookup "ids" with
  | some ids =>
      if ids ≠ "" then
        let requestedIds := (ids.splitOn ",").map String.trim
        tools.filter (fun t => requestedIds.contains t.name)
      else paginateTools pyInt qp tools
  | none => paginateTools pyInt qp tools

/-- The frames yielded by the `tools/list` branch once the tools are
known: build the (full or simplified) tool list, and either send it as
one response or chunk it when its serialized size exceeds the chunk
threshold. -/
def toolsListFrames (env : Env) (qp : List (String × String)) (chunkSizeKb : Int)
    (mid : Json) (tools : List ToolInfo) : List Json :=
  let viewMode := (qp.lookup "view").getD "compact"
  let selected := selectTools env.pyInt qp tools
  let toolList := if viewMode = "full" then selected.map fullToolJson
                  else selected.map simplifiedToolJson
  let response := respFrame mid (Json.obj [("tools", Json.arr toolList)])
  let responseSize : Int := (dumps response).length
  let chunkThreshold : Int := chunkSizeKb * 1024
  if responseSize > chunkThreshold then
    chunkToolsResponse (toolList.map ChunkInput.dict) mid chunkSizeKb
  else [response]

/-- The result dictionary returned by `HTTPTransport._handle_initialize`. -/
def initResult (version : String) : Json :=
  Json.obj [("protocolVersion", Json.str "2025-03-26"),
            ("capabilities", Json.obj [("tools", Json.obj []), ("prompts", Json.obj [])]),
            ("serverInfo", Json.obj [("name", Json.str "zen-mcp-server"),
                                     ("version", Json.str version)])]

/-- The body of the `try` block of `_handle_mcp_message`: dispatch on the
method and produce the yielded frames and the (possibly mutated) session.
An `.error` is an uncaught Python exception inside the `try`, carrying
`str(e)`. -/
def tryBody (env : Env) (session : Session) (method : Option Json) (mid : Json)
    (params : Json) (qp : List (String × String)) (chunkSizeKb : Int) :
    Except String (List Json × Session) :=
  if methodIs method "initialize" then
    let session2 := listSet session "initialized" (Json.bool true)
    .ok ([respFrame mid (initResult env.version)], session2)
  else if methodIs method "notifications/initialized" then
    .ok ([], session)
  else if methodIs method "tools/list" then
    match env.listTools with
    | .error e => .error e
    | .ok tools => .ok (toolsListFrames env qp chunkSizeKb mid tools, session)
  else if methodIs method "tools/call" then
    match params with
    | Json.obj pf =>
        let toolName := pf.lookup "name"
        let arguments := (pf.lookup "arguments").getD (Json.obj [])
        match pyInOp env "prompt" arguments with
        | .error e => .error e
        | .ok hasPrompt =>
            let doCall (zenArguments : Json) : Except String (List Json × Session) :=
              match env.callTool toolName zenArguments with
              | .error e => .error e
              | .ok contents =>
                  .ok ([respFrame mid (Json.obj [("content", Json.arr contents)])], session)
            if hasPrompt && !jsonEqStr toolName "listmodels" && !jsonEqStr toolName "version" then
              match pySubscript env arguments "prompt" with
              | .error e => .error e
              | .ok promptVal => doCall (zenMappedArguments toolName promptVal)
            else
              doCall arguments
    | other => .error (env.attrErrMsg other)
  else if methodIs method "prompts/list" then
    match env.listPrompts with
    | .error e => .error e
    | .ok prompts => .ok ([respFrame mid (Json.obj [("prompts", Json.arr prompts)])], session)
  else if methodIs method "prompts/get" then
    match params with
    | Json.obj pf =>
        let promptName := pf.lookup "name"
        let promptArgs := (pf.lookup "arguments").getD (Json.obj [])
        match env.getPrompt promptName promptArgs with
        | .error e => .error e
        | .ok dump => .ok ([respFrame mid dump], session)
    | other => .error (env.attrErrMsg other)
  else if methodIs method "ping" then
    .ok ([respFrame mid (Json.obj [])], session)
  else
    .ok ([errorFrame mid (-32601) ("Method not found: " ++ env.strOf method)], session)

/-- A Python exception escaping the generator before its `try` block:
`message.get(...)` on a non-dict body raises `AttributeError`, so the
stream produces no frame at all. -/
inductive PyError where
  | attributeError

/-- Embedding of `HTTPTransport._handle_mcp_message`: read `method`,
`id` and `params` from the message, run the dispatch, and catch any
exception of the `try` block as a single `-32000` error frame.  The
result is the list of yielded frames (as JSON values; each is serialized
as one `data: <json>\n\n` SSE frame) together with the session after the
call, or a `PyError` when the generator itself raises. -/
def handleMcpMessage (env : Env) (session : Session) (message : Json)
    (qp : List (String × String)) (chunkSizeKb : Int) :
    Except PyError (List Json × Session) :=
  match message with
  | Json.obj fields =>
      let method := fields.lookup "method"
      let mid := (fields.lookup "id").getD Json.null
      let params := (fields.lookup "params").getD (Json.obj [])
      match tryBody env session method mid params qp chunkSizeKb with
      | .ok out => .ok out
      | .error e => .ok ([errorFrame mid (-32000) e], session)
  | _ => .error PyError.attributeError

/-- One SSE frame as written to the wire. -/
def sseFrame (j : Json) : String :=
  "data: " ++ dumps j ++ "\n\n"

/-- An inbound POST /mcp request as seen by `handle_mcp_request`:
the headers it reads, the query parameters, and the body (`none` when
`request.json()` fails to parse). -/
structure HttpRequest where
  accept : Option String
  userAgent : Option String
  mcpSessionId : Option String
  queryParams : List (String × String)
  body : Option Json

/-- The HTTP response of the route: either an `HTTPException` rendered by
FastAPI as a single JSON object `det`, or a streaming SSE response
carrying the `Mcp-Session-Id` header and the stream of frames (the
stream breaks with a `PyError` when the generator raises outside its
`try`). -/
inductive HttpResponse where
  | jsonBody (status : Nat) (body : Json)
  | sseStream (sessionId : String) (frames : Except PyError (List String))

/-- The Accept-header validation at the top of `handle_mcp_request`. -/
def acceptHeaderOk (accept : Option String) : Bool :=
  let h := accept.getD ""
  !(h = "") && (strContains h "text/event-stream" || strContains h "*/*")

/-- Session lookup/creation: a fresh id (the generated UUID, supplied as
a parameter) when the header is missing, empty, or unknown. -/
def getOrCreateSession (sessions : SessionMap) (header : Option String)
    (freshId : String) : String × SessionMap :=
  match header with
  | some sid =>
      if sid != "" && (sessions.lookup sid).isSome then (sid, sessions)
      else (freshId, listSet sessions freshId [("initialized", Json.bool false)])
  | none => (freshId, listSet sessions freshId [("initialized", Json.bool false)])

/-- The chunk-size computation of `handle_mcp_request`: parse the
`chunk_size` query parameter and clamp it to `[MIN, MAX]`, keeping the
default on a parse failure or an absent parameter. -/
def chunkSizeKbOf (pyInt : String → Option Int) (qp : List (String × String)) : Int :=
  match qp.lookup "chunk_size" with
  | some v =>
      match pyInt v with
      | some requested => max MIN_CHUNK_SIZE_KB (min requested MAX_CHUNK_SIZE_KB)
      | none => DEFAULT_CHUNK_SIZE_KB
  | none => DEFAULT_CHUNK_SIZE_KB

/-- The streaming response and final session map built from one run of
the message handler: the yielded frames are serialized as SSE frames and
the (possibly mutated) session dictionary is the one stored under the
session id; a generator that raises outside its `try` breaks the stream
and leaves the session as created. -/
def streamOutcome (sid : String) (sessions1 : SessionMap)
    (r : Except PyError (List Json × Session)) : HttpResponse × SessionMap :=
  match r with
  | .ok (frames, session2) =>
      (HttpResponse.sseStream sid (.ok (frames.map sseFrame)),
       listSet sessions1 sid session2)
  | .error e => (HttpResponse.sseStream sid (.error e), sessions1)

/-- Embedding of the POST /mcp route `handle_mcp_request`: Accept check
(406), session lookup/creation, chunk-size parsing, body parsing (400),
then the streaming response built from `_handle_mcp_message`, returning
the response and the session map after the request completes. -/
def stepRequest (env : Env) (freshId : String) (req : HttpRequest)
    (sessions : SessionMap) : HttpResponse × SessionMap :=
  if !acceptHeaderOk req.accept then
    (HttpResponse.jsonBody 406
      (Json.obj [("detail", Json.str "Not Acceptable: Client must accept text/event-stream")]),
     sessions)
  else
    let (sid, sessions1) := getOrCreateSession sessions req.mcpSessionId freshId
    let chunkSizeKb := chunkSizeKbOf env.pyInt req.queryParams
    match req.body with
    | none =>
        (HttpResponse.jsonBody 400 (Json.obj [("detail", Json.str "Invalid JSON")]), sessions1)
    | some body =>
        let session := (sessions1.lookup sid).getD []
        streamOutcome sid sessions1
          (handleMcpMessage env session body req.queryParams chunkSizeKb)

/-- Session-map states reachable by some sequence of /mcp requests, from
the empty map, under arbitrary environments, fresh ids and requests. -/
inductive Reachable : SessionMap → Prop where
  | init : Reachable []
  | step (env : Env) (freshId : String) (req : HttpRequest) (st : SessionMap) :
      Reachable st → Reachable (stepRequest env freshId req st).2

/-! Embedding of `providers/perplexity_provider.py`: the supported-model
table, alias resolution, `get_capabilities` and `validate_model_name`.
The model restriction service lives outside the analysed sources, so it
is a parameter `isAllowed resolvedName originalName` of both functions
(both call sites pass `ProviderType.PERPLEXITY` as the first argument). -/

/-- Provider identifiers (only the one used here). -/
inductive ProviderType where
  | PERPLEXITY

/-- A range temperature constraint (min, max, default); the float values
of the source appear as rationals. -/
structure RangeTemperatureConstraint where
  minTemp : ℚ
  maxTemp : ℚ
  defaultTemp : ℚ

/-- The fields of one `ModelCapabilities` record as constructed in the
`SUPPORTED_MODELS` table of the Perplexity provider. -/
structure ModelCapabilities where
  provider : ProviderType
  model_name : String
  friendly_name : String
  context_window : Nat
  max_output_tokens : Nat
  supports_extended_thinking : Bool
  supports_system_prompts : Bool
  supports_streaming : Bool
  supports_function_calling : Bool
  supports_images : Bool
  description : String
  aliases : List String
  supports_json_mode : Bool
  temperature_constraint : RangeTemperatureConstraint

/-- The shared temperature constraint `RangeTemperatureConstraint(0.0, 2.0, 0.2)`. -/
def perplexityTemp : RangeTemperatureConstraint :=
  { minTemp := 0, maxTemp := 2, defaultTemp := 1/5 }

/-- The `SUPPORTED_MODELS` table of `PerplexityProvider`. -/
def SUPPORTED_MODELS : List (String × ModelCapabilities) :=
  [("sonar",
    { provider := ProviderType.PERPLEXITY, model_name := "sonar",
      friendly_name := "Perplexity Sonar", context_window := 127072,
      max_output_tokens := 4096, supports_extended_thinking := false,
      supports_system_prompts := true, supports_streaming := true,
      supports_function_calling := true, supports_images := false,
      description := "Fast search-augmented model with real-time search",
      aliases := ["perplexity"], supports_json_mode := true,
      temperature_constraint := perplexityTemp }),
   ("sonar-pro",
    { provider := ProviderType.PERPLEXITY, model_name := "sonar-pro",
      friendly_name := "Perplexity Sonar Pro", context_window := 127072,
      max_output_tokens := 4096, supports_extended_thinking := false,
      supports_system_prompts := true, supports_streaming := true,
      supports_function_calling := true, supports_images := false,
      description := "High-quality search-augmented model",
      aliases := ["perplexity-pro"], supports_json_mode := true,
      temperature_constraint := perplexityTemp }),
   ("sonar-reasoning",
    { provider := ProviderType.PERPLEXITY, model_name := "sonar-reasoning",
      friendly_name := "Perplexity Sonar Reasoning", context_window := 127072,
      max_output_tokens := 4096, supports_extended_thinking := true,
      supports_system_prompts := true, supports_streaming := true,
      supports_function_calling := true, supports_images := false,
      description := "Reasoning model with search capabilities",
      aliases := ["perplexity-reasoning"], supports_json_mode := true,
      temperature_constraint := perplexityTemp }),
   ("sonar-reasoning-pro",
    { provider := ProviderType.PERPLEXITY, model_name := "sonar-reasoning-pro",
      friendly_name := "Perplexity Sonar Reasoning Pro", context_window := 127072,
      max_output_tokens := 4096, supports_extended_thinking := true,
      supports_system_prompts := true, supports_streaming := true,
      supports_function_calling := true, supports_images := false,
      description := "Advanced reasoning with search - enterprise grade",
      aliases := ["perplexity-reasoning-pro"], supports_json_mode := true,
      temperature_constraint := perplexityTemp }),
   ("sonar-deep-research",
    { provider := ProviderType.PERPLEXITY, model_name := "sonar-deep-research",
      friendly_name := "Perplexity Sonar Deep Research", context_window := 127072,
      max_output_tokens := 4096, supports_extended_thinking := true,
      supports_system_prompts := true, supports_streaming := true,
      supports_function_calling := true, supports_images := false,
      description := "Deep research model for comprehensive analysis",
      aliases := ["deep-research"], supports_json_mode := true,
      temperature_constraint := perplexityTemp }),
   ("r1-1776",
    { provider := ProviderType.PERPLEXITY, model_name := "r1-1776",
      friendly_name := "Perplexity R1-1776", context_window := 127072,
      max_output_tokens := 4096, supports_extended_thinking := true,
      supports_system_prompts := true, supports_streaming := true,
      supports_function_calling := true, supports_images := false,
      description := "DeepSeek R1 post-trained for factual info (offline)",
      aliases := ["r1"], supports_json_mode := true,
      temperature_constraint := perplexityTemp })]

/-- The alias map of `PerplexityProvider._resolve_model_name`. -/
def perplexityAliasMap : List (String × String) :=
  [("perplexity", "sonar"),
   ("perplexity-pro", "sonar-pro"),
   ("perplexity-reasoning", "sonar-reasoning"),
   ("perplexity-reasoning-pro", "sonar-reasoning-pro"),
   ("deep-research", "sonar-deep-research"),
   ("r1", "r1-1776")]

/-- Embedding of `_resolve_model_name`: `alias_map.get(model_name, model_name)`. -/
def resolveModelName (model_name : String) : String :=
  (perplexityAliasMap.lookup model_name).getD model_name

/-- Embedding of `PerplexityProvider.get_capabilities`: resolve through
the alias map, require membership in `SUPPORTED_MODELS`, require approval
by the restriction service, and return the capabilities record;
`.error` is the message of the raised `ValueError`. -/
def get_capabilities (isAllowed : String → String → Bool) (model_name : String) :
    Except String ModelCapabilities :=
  let resolved_name := resolveModelName model_name
  match SUPPORTED_MODELS.lookup resolved_name with
  | none => .error ("Unsupported model: " ++ model_name)
  | some caps =>
      if !isAllowed resolved_name model_name then
        .error ("Model '" ++ model_name ++ "' is not allowed.")
      else .ok caps

/-- Embedding of `PerplexityProvider.validate_model_name`: the same two
checks, returned as a boolean. -/
def validate_model_name (isAllowed : String → String → Bool) (model_name : String) : Bool :=
  let resolved_name := resolveModelName model_name
  match SUPPORTED_MODELS.lookup resolved_name with
  | none => false
  | some _ => isAllowed resolved_name model_name

/-! Observation helpers and concrete instances used by the theorems. -/

/-- The seven methods of the if/elif dispatch chain. -/
def supportedMethod (m : Option Json) : Bool :=
  methodIs m "initialize" || methodIs m "notifications/initialized" ||
  methodIs m "tools/list" || methodIs m "tools/call" ||
  methodIs m "prompts/list" || methodIs m "prompts/get" || methodIs m "ping"

/-- The frames yielded by a run of the message handler (none when the
generator raised before its `try` block). -/
def framesOf (r : Except PyError (List Json × Session)) : List Json :=
  match r with
  | .ok (fs, _) => fs
  | .error _ => []

/-- The session after a run of the message handler; an escaped `PyError`
leaves the session as it was. -/
def sessionAfter (r : Except PyError (List Json × Session)) (dflt : Session) : Session :=
  match r with
  | .ok (_, s) => s
  | .error _ => dflt

/-- Whether the generator ran to completion (no Python exception escaped
before the `try` block). -/
def generatorRuns (r : Except PyError (List Json × Session)) : Bool :=
  match r with
  | .ok _ => true
  | .error _ => false

/-- The outcome of the `tools/call` branch once the argument shape is
fixed: call the tool handler and wrap its contents, or let its exception
propagate to the `except` clause. -/
def callOutcome (env : Env) (session : Session) (mid : Json) (toolName : Option Json)
    (zenArguments : Json) : Except String (List Json × Session) :=
  match env.callTool toolName zenArguments with
  | .error e => .error e
  | .ok contents => .ok ([respFrame mid (Json.obj [("content", Json.arr contents)])], session)

/-- The `Mcp-Session-Id` header of a response (absent on the
`HTTPException` responses, which drop the prepared headers). -/
def responseSessionId (r : HttpResponse) : Option String :=
  match r with
  | .sseStream sid _ => some sid
  | .jsonBody _ _ => none

/-- A response is a streaming SSE response all of whose produced frames
are `data: <json>` double-newline frames. -/
def sseWellFormed (r : HttpResponse) : Prop :=
  match r with
  | .sseStream _ (.ok fs) => ∃ js : List Json, fs = js.map sseFrame
  | .sseStream _ (.error _) => True
  | .jsonBody _ _ => False

/-- A fixed environment used to instantiate theorems on concrete inputs:
no tools or prompts are registered, every handler succeeds trivially, and
`str()` renders `None` as Python does. -/
def trivEnv : Env :=
  { listTools := .ok []
    callTool := fun _ _ => .ok []
    listPrompts := .ok []
    getPrompt := fun _ _ => .ok Json.null
    version := "1.0.0"
    strOf := fun v => match v with
                      | none => "None"
                      | some (Json.str s) => s
                      | some _ => ""
    pyInt := fun _ => none
    attrErrMsg := fun _ => "'list' object has no attribute 'get'"
    inOpTypeErrMsg := fun _ => "argument of type 'int' is not iterable"
    subscriptErrMsg := fun _ => "'int' object is not subscriptable"
    keyErrMsg := fun k => "'" ++ k ++ "'" }

/-- An environment whose tool handler fails with a vendor API error,
used to exercise the `except` clause on a concrete input. -/
def failingCallEnv : Env :=
  { trivEnv with callTool := fun _ _ => .error "Perplexity API error: 500" }

/-- Field access on a JSON object. -/
def jsonGet (j : Json) (k : String) : Option Json :=
  match j with
  | Json.obj fs => fs.lookup k
  | _ => none

/-- The `result.tools` array of a chunk response. -/
def chunkResultTools (c : Json) : List Json :=
  match jsonGet c "result" with
  | some r =>
      match jsonGet r "tools" with
      | some (Json.arr ts) => ts
      | _ => []
  | _ => []

/-! Theorems. -/

theorem chunkResultTools_chunkResponse (mid : Json) (p : List Json) :
    chunkResultTools (chunkResponse mid p) = p := rfl

theorem chunkToolsGo_join (b s : Int) (ts : List ChunkInput) :
    ∀ (current : List Json) (size : Int),
      (chunkToolsGo b s ts current size).flatten = current ++ ts.map toolDataOf := by
  induction ts with
  | nil =>
      intro current size
      by_cases h : current.isEmpty
      · simp [chunkToolsGo, h, List.isEmpty_iff.mp h]
      · simp [chunkToolsGo, h]
  | cons t rest ih =>
      intro current size
      simp only [chunkToolsGo]
      split
      · simp [ih]
      · simp [ih]

theorem chunkToolsGo_ne_nil (b s : Int) (ts : List ChunkInput) :
    ∀ (current : List Json) (size : Int),
      ∀ c ∈ chunkToolsGo b s ts current size, c ≠ [] := by
  induction ts with
  | nil =>
      intro current size c hc
      by_cases h : current.isEmpty
      · simp [chunkToolsGo, h] at hc
      · simp [chunkToolsGo, h] at hc
        subst hc
        simpa [List.isEmpty_iff] using h
  | cons t rest ih =>
      intro current size c hc
      simp only [chunkToolsGo] at hc
      split at hc
      · rename_i hguard
        rcases List.mem_cons.mp hc with h1 | h1
        · subst h1
          simpa [List.isEmpty_iff] using hguard.2
        · exact ih _ _ c h1
      · exact ih _ _ c hc

/-- C5: `_chunk_tools_response` loses, duplicates and reorders nothing:
for every tools list, message id and chunk size, the concatenation of the
chunk `result.tools` arrays equals, in order, the per-tool dictionaries
of the input list; the tools array of every chunk is non-empty; and every
chunk is a complete JSON-RPC response carrying `jsonrpc` `"2.0"` and the
given message id. -/
theorem chunk_tools_response_correct (tools : List ChunkInput) (mid : Json) (kb : Int) :
    ((chunkToolsResponse tools mid kb).map chunkResultTools).flatten = tools.map toolDataOf ∧
    ∀ c ∈ chunkToolsResponse tools mid kb,
      jsonGet c "jsonrpc" = some (Json.str "2.0") ∧ jsonGet c "id" = some mid ∧
      c = chunkResponse mid (chunkResultTools c) ∧ chunkResultTools c ≠ [] := by
  constructor
  · unfold chunkToolsResponse
    rw [List.map_map]
    have hcomp : chunkResultTools ∘ (fun c => chunkResponse mid c) = id :=
      funext fun p => chunkResultTools_chunkResponse mid p
    rw [hcomp, List.map_id]
    simpa using chunkToolsGo_join _ _ tools [] 0
  · intro c hc
    unfold chunkToolsResponse at hc
    rcases List.mem_map.mp hc with ⟨p, hp, rfl⟩
    refine ⟨rfl, ?_, ?_, ?_⟩
    · rfl
    · rw [chunkResultTools_chunkResponse]
    · rw [chunkResultTools_chunkResponse]
      exact chunkToolsGo_ne_nil _ _ tools [] 0 p hp

/-- C9: the `chunk_size` query parameter, when it parses as an integer n,
yields the chunk size max(8, min(n, 50)) (in KB); when it fails to parse
or is absent, the default of 20 KB is used. -/
theorem chunk_size_param_clamped (pyInt : String → Option Int) (qp : List (String × String)) :
    (∀ v n, qp.lookup "chunk_size" = some v → pyInt v = some n →
        chunkSizeKbOf pyInt qp = max 8 (min n 50)) ∧
    (∀ v, qp.lookup "chunk_size" = some v → pyInt v = none →
        chunkSizeKbOf pyInt qp = 20) ∧
    (qp.lookup "chunk_size" = none → chunkSizeKbOf pyInt qp = 20) := by
  refine ⟨?_, ?_, ?_⟩
  · intro v n hv hn
    simp [chunkSizeKbOf, hv, hn, MIN_CHUNK_SIZE_KB, MAX_CHUNK_SIZE_KB]
  · intro v hv hn
    simp [chunkSizeKbOf, hv, hn, DEFAULT_CHUNK_SIZE_KB]
  · intro h
    simp [chunkSizeKbOf, h, DEFAULT_CHUNK_SIZE_KB]

/-- Witness for C9: a request with `chunk_size=100` is clamped to 50 KB. -/
theorem chunk_size_param_clamped_witness :
    chunkSizeKbOf (fun s => if s = "100" then some (100 : Int) else none)
        [("chunk_size", "100")] = max 8 (min 100 50) :=
  (chunk_size_param_clamped _ _).1 "100" 100 (by decide) (by decide)

/-- C10: `validate_model_name` returns true exactly when
`get_capabilities` returns a capabilities record without raising
`ValueError`; both resolve the name through the alias map and then
require membership in `SUPPORTED_MODELS` and approval by the restriction
service (quantified here as an arbitrary predicate `isAllowed`). -/
theorem validate_iff_get_capabilities (isAllowed : String → String → Bool) (m : String) :
    (validate_model_name isAllowed m = true ↔
      ∃ c, get_capabilities isAllowed m = Except.ok c) ∧
    (validate_model_name isAllowed m = true ↔
      ((SUPPORTED_MODELS.lookup (resolveModelName m)).isSome ∧
        isAllowed (resolveModelName m) m = true)) := by
  unfold validate_model_name get_capabilities
  cases h : SUPPORTED_MODELS.lookup (resolveModelName m) with
  | none => simp [h]
  | some caps =>
      by_cases ha : isAllowed (resolveModelName m) m = true <;> simp [h, ha]

theorem streamOutcome_sseWellFormed (sid : String) (s1 : SessionMap)
    (r : Except PyError (List Json × Session)) :
    sseWellFormed (streamOutcome sid s1 r).1 := by
  cases r with
  | ok out => exact ⟨out.1, rfl⟩
  | error e => trivial

theorem responseSessionId_streamOutcome (sid : String) (s1 : SessionMap)
    (r : Except PyError (List Json × Session)) :
    responseSessionId (streamOutcome sid s1 r).1 = some sid := by
  cases r with
  | ok out => rfl
  | error e => rfl

/-- C8: a POST /mcp request whose Accept header is missing, empty, or
contains neither "text/event-stream" nor "*/*" is rejected with HTTP 406
before the body is parsed (the result does not depend on the body), and
the session map is unchanged. -/
theorem accept_rejected_406 (env : Env) (freshId : String) (req : HttpRequest)
    (st : SessionMap)
    (h : req.accept = none ∨ req.accept = some "" ∨
         ∃ a, req.accept = some a ∧ strContains a "text/event-stream" = false ∧
              strContains a "*/*" = false) :
    (stepRequest env freshId req st =
      (HttpResponse.jsonBody 406
        (Json.obj [("detail", Json.str "Not Acceptable: Client must accept text/event-stream")]),
       st)) ∧
    (∀ b, stepRequest env freshId { req with body := b } st =
        stepRequest env freshId req st) := by
  have hacc : acceptHeaderOk req.accept = false := by
    rcases h with h | h | ⟨a, ha, h1, h2⟩
    · simp [acceptHeaderOk, h]
    · simp [acceptHeaderOk, h]
    · simp [acceptHeaderOk, ha, h1, h2]
  constructor
  · simp [stepRequest, hacc]
  · intro b
    simp [stepRequest, hacc]

/-- Witness for C8: an Accept header of only application/json is
rejected with 406 and creates no session. -/
theorem accept_rejected_406_witness :
    stepRequest trivEnv "u1"
      { accept := some "application/json", userAgent := none, mcpSessionId := none,
        queryParams := [], body := some (Json.obj []) } [] =
      (HttpResponse.jsonBody 406
        (Json.obj [("detail", Json.str "Not Acceptable: Client must accept text/event-stream")]),
       []) :=
  (accept_rejected_406 trivEnv "u1" _ []
    (Or.inr (Or.inr ⟨"application/json", rfl, by decide, by decide⟩))).1

/-- C2 (amended): the response to a POST /mcp request is a single JSON
object exactly for the HTTP rejections (406 for a failing Accept check,
400 for a body that does not parse as JSON), and otherwise always an SSE
stream of "data: <json>" frames, whatever the method; the User-Agent
header is never consulted. -/
theorem response_form (env : Env) (freshId : String) (req : HttpRequest) (st : SessionMap) :
    (acceptHeaderOk req.accept = false →
      (stepRequest env freshId req st).1 =
        HttpResponse.jsonBody 406
          (Json.obj [("detail", Json.str "Not Acceptable: Client must accept text/event-stream")])) ∧
    (acceptHeaderOk req.accept = true → req.body = none →
      (stepRequest env freshId req st).1 =
        HttpResponse.jsonBody 400 (Json.obj [("detail", Json.str "Invalid JSON")])) ∧
    (∀ b, acceptHeaderOk req.accept = true → req.body = some b →
      sseWellFormed (stepRequest env freshId req st).1) ∧
    (∀ ua, stepRequest env freshId { req with userAgent := ua } st =
        stepRequest env freshId req st) := by
  refine ⟨?_, ?_, ?_, ?_⟩
  · intro h
    simp [stepRequest, h]
  · intro h hb
    simp [stepRequest, h, hb]
  · intro b h hb
    simp only [stepRequest, h, hb, Bool.not_true, Bool.false_eq_true, if_false]
    exact streamOutcome_sseWellFormed _ _ _
  · intro ua
    rfl

/-- Counterexample for C2: two requests agreeing on the method field
(absent in both), on Accept and on User-Agent produce the two different
forms, so the form is not selected by method and those headers: an
unparseable body gets a single JSON object (400), a parseable one gets
an SSE stream. -/
theorem response_form_counterexample :
    (stepRequest trivEnv "u1"
        { accept := some "*/*", userAgent := some "curl/8", mcpSessionId := none,
          queryParams := [], body := none } []).1 =
      HttpResponse.jsonBody 400 (Json.obj [("detail", Json.str "Invalid JSON")]) ∧
    (stepRequest trivEnv "u1"
        { accept := some "*/*", userAgent := some "curl/8", mcpSessionId := none,
          queryParams := [], body := some (Json.obj []) } []).1 =
      HttpResponse.sseStream "u1"
        (Except.ok [sseFrame (errorFrame Json.null (-32601) "Method not found: None")]) := by
  constructor
  · rfl
  · rfl

/-- C4 (amended): a missing, empty, or unknown Mcp-Session-Id header
leads to a fresh server-generated id under which a new session with
initialized=False is stored; a non-empty header naming a known session
is correlated to it, leaving the map untouched; and for a request that
passes the Accept check and whose body parses, the Mcp-Session-Id
response header carries exactly the id so selected. -/
theorem session_id_handling (env : Env) (freshId : String) (req : HttpRequest)
    (st : SessionMap) :
    (getOrCreateSession st none freshId =
        (freshId, listSet st freshId [("initialized", Json.bool false)])) ∧
    (∀ sid, sid = "" ∨ st.lookup sid = none →
        getOrCreateSession st (some sid) freshId =
          (freshId, listSet st freshId [("initialized", Json.bool false)])) ∧
    (∀ sid, sid ≠ "" → (st.lookup sid).isSome = true →
        getOrCreateSession st (some sid) freshId = (sid, st)) ∧
    (∀ b, acceptHeaderOk req.accept = true → req.body = some b →
        responseSessionId (stepRequest env freshId req st).1 =
          some (getOrCreateSession st req.mcpSessionId freshId).1) := by
  refine ⟨rfl, ?_, ?_, ?_⟩
  · intro sid h
    rcases h with h | h
    · subst h
      simp [getOrCreateSession]
    · simp [getOrCreateSession, h]
  · intro sid h1 h2
    simp [getOrCreateSession, h1, h2]
  · intro b h hb
    simp only [stepRequest, h, hb, Bool.not_true, Bool.false_eq_true, if_false]
    exact responseSessionId_streamOutcome _ _ _

/-- Counterexample for C4: with an empty session map, a request carrying
the unknown header id "abc" is not correlated to "abc": a fresh id is
generated and echoed instead, and nothing is stored under "abc". -/
theorem session_id_handling_counterexample :
    responseSessionId
        (stepRequest trivEnv "f47ac10b-58cc-4372-a567-0e02b2c3d479"
          { accept := some "*/*", userAgent := none, mcpSessionId := some "abc",
            queryParams := [],
            body := some (Json.obj [("method", Json.str "ping"), ("id", Json.num 1)]) }
          []).1 =
      some "f47ac10b-58cc-4372-a567-0e02b2c3d479" ∧
    "f47ac10b-58cc-4372-a567-0e02b2c3d479" ≠ "abc" ∧
    (stepRequest trivEnv "f47ac10b-58cc-4372-a567-0e02b2c3d479"
          { accept := some "*/*", userAgent := none, mcpSessionId := some "abc",
            queryParams := [],
            body := some (Json.obj [("method", Json.str "ping"), ("id", Json.num 1)]) }
          []).2.lookup "abc" = none ∧
    (stepRequest trivEnv "f47ac10b-58cc-4372-a567-0e02b2c3d479"
          { accept := some "*/*", userAgent := none, mcpSessionId := some "abc",
            queryParams := [],
            body := some (Json.obj [("method", Json.str "ping"), ("id", Json.num 1)]) }
          []).2.lookup "f47ac10b-58cc-4372-a567-0e02b2c3d479" =
      some [("initialized", Json.bool false)] := by
  refine ⟨rfl, by decide, rfl, rfl⟩

/-- Witness for C4: the header id "abc" is unknown in the empty map, so
session creation stores a fresh entry with initialized=False. -/
theorem session_id_handling_witness :
    getOrCreateSession [] (some "abc") "u1" =
      ("u1", listSet [] "u1" [("initialized", Json.bool false)]) :=
  (session_id_handling trivEnv "u1"
      { accept := none, userAgent := none, mcpSessionId := none,
        queryParams := [], body := none } []).2.1 "abc" (Or.inr rfl)

/-- Witness for C2: a well-formed ping request receives an SSE response. -/
theorem response_form_witness :
    sseWellFormed
      (stepRequest trivEnv "u1"
        { accept := some "text/event-stream", userAgent := none, mcpSessionId := none,
          queryParams := [],
          body := some (Json.obj [("method", Json.str "ping"), ("id", Json.num 1)]) }
        []).1 :=
  (response_form trivEnv "u1" _ []).2.2.1
    (Json.obj [("method", Json.str "ping"), ("id", Json.num 1)]) (by decide) rfl

theorem respFrame_ne_errorFrame (mid r mid2 : Json) (c : Int) (m : String) :
    respFrame mid r ≠ errorFrame mid2 c m := by
  simp [respFrame, errorFrame]

theorem methodIs_eq {m : Option Json} {s : String} (h : methodIs m s = true) :
    m = some (Json.str s) := by
  cases m with
  | none => simp [methodIs, jsonEqStr] at h
  | some j =>
      cases j with
      | str t => simp [methodIs, jsonEqStr] at h; subst h; rfl
      | null => simp [methodIs, jsonEqStr] at h
      | bool b => simp [methodIs, jsonEqStr] at h
      | num n => simp [methodIs, jsonEqStr] at h
      | arr xs => simp [methodIs, jsonEqStr] at h
      | obj fs => simp [methodIs, jsonEqStr] at h

theorem tryBody_unsupported (env : Env) (session : Session) (method : Option Json)
    (mid : Json) (params : Json) (qp : List (String × String)) (kb : Int)
    (h : supportedMethod method = false) :
    tryBody env session method mid params qp kb =
      .ok ([errorFrame mid (-32601) ("Method not found: " ++ env.strOf method)], session) := by
  cases method with
  | none => rfl
  | some j =>
      cases j with
      | str t =>
          by_cases e1 : t = "initialize"
          · exact absurd h (by simp [supportedMethod, methodIs, jsonEqStr, e1])
          by_cases e2 : t = "notifications/initialized"
          · exact absurd h (by simp [supportedMethod, methodIs, jsonEqStr, e2])
          by_cases e3 : t = "tools/list"
          · exact absurd h (by simp [supportedMethod, methodIs, jsonEqStr, e3])
          by_cases e4 : t = "tools/call"
          · exact absurd h (by simp [supportedMethod, methodIs, jsonEqStr, e4])
          by_cases e5 : t = "prompts/list"
          · exact absurd h (by simp [supportedMethod, methodIs, jsonEqStr, e5])
          by_cases e6 : t = "prompts/get"
          · exact absurd h (by simp [supportedMethod, methodIs, jsonEqStr, e6])
          by_cases e7 : t = "ping"
          · exact absurd h (by simp [supportedMethod, methodIs, jsonEqStr, e7])
          simp [tryBody, methodIs, jsonEqStr, e1, e2, e3, e4, e5, e6, e7]
      | null => rfl
      | bool b => rfl
      | num n => rfl
      | arr xs => rfl
      | obj fs => rfl

theorem toolsListFrames_shape (env : Env) (qp : List (String × String)) (kb : Int)
    (mid : Json) (tools : List ToolInfo) :
    ∀ f ∈ toolsListFrames env qp kb mid tools, ∃ r, f = respFrame mid r := by
  intro f hf
  simp only [toolsListFrames, chunkToolsResponse] at hf
  split at hf <;> split at hf <;>
    first
      | (rcases List.mem_map.mp hf with ⟨p, _, rfl⟩; exact ⟨_, rfl⟩)
      | (rcases List.mem_singleton.mp hf with rfl; exact ⟨_, rfl⟩)

theorem tryBody_frames_respFrames (env : Env) (session : Session) (method : Option Json)
    (mid : Json) (params : Json) (qp : List (String × String)) (kb : Int)
    (frames : List Json) (s2 : Session)
    (hok : tryBody env session method mid params qp kb = .ok (frames, s2))
    (hsup : supportedMethod method = true) :
    ∀ f ∈ frames, ∃ r, f = respFrame mid r := by
  unfold tryBody at hok
  by_cases m1 : methodIs method "initialize"
  · simp only [m1, if_true] at hok
    simp only [Except.ok.injEq, Prod.mk.injEq] at hok; obtain ⟨rfl, rfl⟩ := hok
    intro f hf
    rcases List.mem_singleton.mp hf with rfl
    exact ⟨_, rfl⟩
  · simp only [m1] at hok
    by_cases m2 : methodIs method "notifications/initialized"
    · simp only [m2, if_true, if_false, Bool.false_eq_true] at hok
      simp only [Except.ok.injEq, Prod.mk.injEq] at hok; obtain ⟨rfl, rfl⟩ := hok
      intro f hf
      simp at hf
    · simp only [m2] at hok
      by_cases m3 : methodIs method "tools/list"
      · simp only [m3, if_true, if_false, Bool.false_eq_true] at hok
        cases henv : env.listTools with
        | error e => rw [henv] at hok; exact absurd hok (by simp)
        | ok tools =>
            rw [henv] at hok
            simp only [Except.ok.injEq, Prod.mk.injEq] at hok; obtain ⟨rfl, rfl⟩ := hok
            exact toolsListFrames_shape env qp kb mid tools
      · simp only [m3] at hok
        by_cases m4 : methodIs method "tools/call"
        · simp only [m4, if_true, if_false, Bool.false_eq_true] at hok
          cases params with
          | obj pf =>
              simp only at hok
              cases hin : pyInOp env "prompt" ((pf.lookup "arguments").getD (Json.obj [])) with
              | error e => rw [hin] at hok; exact absurd hok (by simp)
              | ok hasPrompt =>
                  rw [hin] at hok
                  simp only at hok
                  split at hok
                  · cases hsub : pySubscript env ((pf.lookup "arguments").getD (Json.obj [])) "prompt" with
                    | error e => rw [hsub] at hok; exact absurd hok (by simp)
                    | ok pv =>
                        rw [hsub] at hok
                        simp only at hok
                        cases hcall : env.callTool (pf.lookup "name")
                            (zenMappedArguments (pf.lookup "name") pv) with
                        | error e => rw [hcall] at hok; exact absurd hok (by simp)
                        | ok contents =>
                            rw [hcall] at hok
                            simp only [Except.ok.injEq, Prod.mk.injEq] at hok; obtain ⟨rfl, rfl⟩ := hok
                            intro f hf
                            rcases List.mem_singleton.mp hf with rfl
                            exact ⟨_, rfl⟩
                  · cases hcall : env.callTool (pf.lookup "name")
                        ((pf.lookup "arguments").getD (Json.obj [])) with
                    | error e => rw [hcall] at hok; exact absurd hok (by simp)
                    | ok contents =>
                        rw [hcall] at hok
                        simp only [Except.ok.injEq, Prod.mk.injEq] at hok; obtain ⟨rfl, rfl⟩ := hok
                        intro f hf
                        rcases List.mem_singleton.mp hf with rfl
                        exact ⟨_, rfl⟩
          | null => exact absurd hok (by simp)
          | bool b => exact absurd hok (by simp)
          | num n => exact absurd hok (by simp)
          | str s => exact absurd hok (by simp)
          | arr xs => exact absurd hok (by simp)
        · simp only [m4] at hok
          by_cases m5 : methodIs method "prompts/list"
          · simp only [m5, if_true, if_false, Bool.false_eq_true] at hok
            cases henv : env.listPrompts with
            | error e => rw [henv] at hok; exact absurd hok (by simp)
            | ok prompts =>
                rw [henv] at hok
                simp only [Except.ok.injEq, Prod.mk.injEq] at hok; obtain ⟨rfl, rfl⟩ := hok
                intro f hf
                rcases List.mem_singleton.mp hf with rfl
                exact ⟨_, rfl⟩
          · simp only [m5] at hok
            by_cases m6 : methodIs method "prompts/get"
            · simp only [m6, if_true, if_false, Bool.false_eq_true] at hok
              cases params with
              | obj pf =>
                  simp only at hok
                  cases henv : env.getPrompt (pf.lookup "name")
                      ((pf.lookup "arguments").getD (Json.obj [])) with
                  | error e => rw [henv] at hok; exact absurd hok (by simp)
                  | ok dump =>
                      rw [henv] at hok
                      simp only [Except.ok.injEq, Prod.mk.injEq] at hok; obtain ⟨rfl, rfl⟩ := hok
                      intro f hf
                      rcases List.mem_singleton.mp hf with rfl
                      exact ⟨_, rfl⟩
              | null => exact absurd hok (by simp)
              | bool b => exact absurd hok (by simp)
              | num n => exact absurd hok (by simp)
              | str s => exact absurd hok (by simp)
              | arr xs => exact absurd hok (by simp)
            · simp only [m6] at hok
              by_cases m7 : methodIs method "ping"
              · simp only [m7, if_true, if_false, Bool.false_eq_true] at hok
                simp only [Except.ok.injEq, Prod.mk.injEq] at hok; obtain ⟨rfl, rfl⟩ := hok
                intro f hf
                rcases List.mem_singleton.mp hf with rfl
                exact ⟨_, rfl⟩
              · exact absurd hsup (by simp [supportedMethod, m1, m2, m3, m4, m5, m6, m7])

/-- C1 (amended): for every request whose body parses as a JSON object,
the message handler yields the JSON-RPC error frame with code -32601 and
message "Method not found: <method>" (and nothing else) exactly when the
method field is not one of the seven dispatched methods, and for
notifications/initialized it yields no response frame at all; the
generator itself never raises on an object body. -/
theorem method_not_found_iff (env : Env) (session : Session)
    (fields : List (String × Json)) (qp : List (String × String)) (kb : Int) :
    generatorRuns (handleMcpMessage env session (Json.obj fields) qp kb) = true ∧
    (errorFrame ((fields.lookup "id").getD Json.null) (-32601)
        ("Method not found: " ++ env.strOf (fields.lookup "method")) ∈
          framesOf (handleMcpMessage env session (Json.obj fields) qp kb) ↔
      supportedMethod (fields.lookup "method") = false) ∧
    (supportedMethod (fields.lookup "method") = false →
      framesOf (handleMcpMessage env session (Json.obj fields) qp kb) =
        [errorFrame ((fields.lookup "id").getD Json.null) (-32601)
          ("Method not found: " ++ env.strOf (fields.lookup "method"))]) ∧
    (methodIs (fields.lookup "method") "notifications/initialized" = true →
      framesOf (handleMcpMessage env session (Json.obj fields) qp kb) = []) := by
  cases hbody : tryBody env session (fields.lookup "method")
      ((fields.lookup "id").getD Json.null) ((fields.lookup "params").getD (Json.obj []))
      qp kb with
  | ok out =>
      have hm : handleMcpMessage env session (Json.obj fields) qp kb = .ok out := by
        simp [handleMcpMessage, hbody]
      have hsing : supportedMethod (fields.lookup "method") = false →
          framesOf (handleMcpMessage env session (Json.obj fields) qp kb) =
            [errorFrame ((fields.lookup "id").getD Json.null) (-32601)
              ("Method not found: " ++ env.strOf (fields.lookup "method"))] := by
        intro hsup
        have hu := tryBody_unsupported env session (fields.lookup "method")
            ((fields.lookup "id").getD Json.null)
            ((fields.lookup "params").getD (Json.obj [])) qp kb hsup
        rw [hbody] at hu
        simp only [Except.ok.injEq] at hu
        rw [hm]
        rw [show framesOf (Except.ok out) = out.1 from rfl, hu]
      refine ⟨by simp [hm, generatorRuns], ⟨?_, ?_⟩, hsing, ?_⟩
      · intro hmem
        by_contra hsup'
        have hsup : supportedMethod (fields.lookup "method") = true := by
          cases hx : supportedMethod (fields.lookup "method") with
          | true => rfl
          | false => exact absurd hx hsup'
        have hshape := tryBody_frames_respFrames env session (fields.lookup "method")
            ((fields.lookup "id").getD Json.null)
            ((fields.lookup "params").getD (Json.obj [])) qp kb out.1 out.2
            (by rw [hbody]) hsup
        rw [hm] at hmem
        obtain ⟨r, hr⟩ := hshape _ hmem
        exact respFrame_ne_errorFrame _ r _ _ _ hr.symm
      · intro hsup
        rw [hsing hsup]
        exact List.mem_singleton_self _
      · intro hnotif
        have hmeth := methodIs_eq hnotif
        rw [hmeth] at hbody
        have hthis : tryBody env session (some (Json.str "notifications/initialized"))
            ((fields.lookup "id").getD Json.null)
            ((fields.lookup "params").getD (Json.obj [])) qp kb = .ok ([], session) := rfl
        rw [hthis] at hbody
        simp only [Except.ok.injEq] at hbody
        rw [hm, show framesOf (Except.ok out) = out.1 from rfl, ← hbody]
  | error e =>
      have hm : handleMcpMessage env session (Json.obj fields) qp kb =
          .ok ([errorFrame ((fields.lookup "id").getD Json.null) (-32000) e], session) := by
        simp [handleMcpMessage, hbody]
      have hnsup : supportedMethod (fields.lookup "method") ≠ false := by
        intro hsup
        have hu := tryBody_unsupported env session (fields.lookup "method")
            ((fields.lookup "id").getD Json.null)
            ((fields.lookup "params").getD (Json.obj [])) qp kb hsup
        rw [hbody] at hu
        exact absurd hu (by simp)
      refine ⟨by simp [hm, generatorRuns], ⟨?_, ?_⟩, ?_, ?_⟩
      · intro hmem
        rw [hm] at hmem
        have := List.mem_singleton.mp hmem
        exact absurd this.symm (by simp [errorFrame])
      · intro hsup
        exact absurd hsup hnsup
      · intro hsup
        exact absurd hsup hnsup
      · intro hnotif
        exfalso
        have hmeth := methodIs_eq hnotif
        rw [hmeth] at hbody
        have hthis : tryBody env session (some (Json.str "notifications/initialized"))
            ((fields.lookup "id").getD Json.null)
            ((fields.lookup "params").getD (Json.obj [])) qp kb = .ok ([], session) := rfl
        rw [hthis] at hbody
        exact absurd hbody (by simp)

/-- Counterexample for C1: a body that parses as JSON but not as a JSON
object (here the array `[]`) makes the generator raise AttributeError on
`message.get` before the `try` block, so no -32601 frame is yielded even
though the (absent) method field is not one of the seven methods. -/
theorem method_not_found_counterexample :
    handleMcpMessage trivEnv [] (Json.arr []) [] 20 = Except.error PyError.attributeError ∧
    framesOf (handleMcpMessage trivEnv [] (Json.arr []) [] 20) = [] ∧
    supportedMethod none = false := by
  refine ⟨rfl, rfl, rfl⟩

/-- Witness for C1: an unknown method "foobar" yields exactly the -32601
error frame, and a notifications/initialized body yields no frame. -/
theorem method_not_found_iff_witness :
    framesOf (handleMcpMessage trivEnv [] (Json.obj [("method", Json.str "foobar")]) [] 20) =
      [errorFrame Json.null (-32601) "Method not found: foobar"] ∧
    framesOf (handleMcpMessage trivEnv []
        (Json.obj [("method", Json.str "notifications/initialized")]) [] 20) = [] :=
  ⟨(method_not_found_iff trivEnv [] [("method", Json.str "foobar")] [] 20).2.2.1
      (by decide),
   (method_not_found_iff trivEnv [] [("method", Json.str "notifications/initialized")]
      [] 20).2.2.2 (by decide)⟩

/-- C3: for a request with a supported method, an exception e escaping
the dispatch (vendor API failures included) is caught by the `except`
clause and yields exactly one SSE frame: a JSON-RPC error object with
code -32000, message str(e), and the request id; the session is left
unchanged and nothing is retried. -/
theorem exception_single_error_frame (env : Env) (session : Session)
    (fields : List (String × Json)) (qp : List (String × String)) (kb : Int) (e : String)
    (hsup : supportedMethod (fields.lookup "method") = true)
    (herr : tryBody env session (fields.lookup "method")
        ((fields.lookup "id").getD Json.null) ((fields.lookup "params").getD (Json.obj []))
        qp kb = .error e) :
    handleMcpMessage env session (Json.obj fields) qp kb =
      .ok ([errorFrame ((fields.lookup "id").getD Json.null) (-32000) e], session) := by
  simp [handleMcpMessage, herr]

/-- Witness for C3: a failing tool handler surfaces its stringified
exception as a single -32000 error frame with the request id. -/
theorem exception_single_error_frame_witness :
    handleMcpMessage failingCallEnv []
        (Json.obj [("method", Json.str "tools/call"), ("id", Json.num 7)]) [] 20 =
      .ok ([errorFrame (Json.num 7) (-32000) "Perplexity API error: 500"], []) :=
  exception_single_error_frame failingCallEnv []
    [("method", Json.str "tools/call"), ("id", Json.num 7)] [] 20
    "Perplexity API error: 500" (by decide) rfl

theorem lookup_any_key (l : List (String × Json)) (k : String) :
    (l.any (fun kv => kv.1 = k)) = (l.lookup k).isSome := by
  induction l with
  | nil => rfl
  | cons kv t ih =>
      obtain ⟨k2, v⟩ := kv
      by_cases h : k2 = k
      · subst h
        simp [List.lookup]
      · have hne : (k == k2) = false := beq_eq_false_iff_ne.mpr fun hh => h hh.symm
        simp [List.lookup, h, ih, hne]

theorem tryBody_tools_call (env : Env) (session : Session) (mid : Json)
    (pf : List (String × Json)) (qp : List (String × String)) (kb : Int) :
    tryBody env session (some (Json.str "tools/call")) mid (Json.obj pf) qp kb =
      (match pyInOp env "prompt" ((pf.lookup "arguments").getD (Json.obj [])) with
       | .error e => .error e
       | .ok hasPrompt =>
          if hasPrompt && !jsonEqStr (pf.lookup "name") "listmodels"
              && !jsonEqStr (pf.lookup "name") "version" then
            match pySubscript env ((pf.lookup "arguments").getD (Json.obj [])) "prompt" with
            | .error e => .error e
            | .ok promptVal =>
                callOutcome env session mid (pf.lookup "name")
                  (zenMappedArguments (pf.lookup "name") promptVal)
          else
            callOutcome env session mid (pf.lookup "name")
              ((pf.lookup "arguments").getD (Json.obj []))) := rfl

/-- C6 (amended): on a tools/call request whose params and arguments are
JSON objects, when the arguments carry a "prompt" key and the tool is
neither listmodels nor version, the tool handler is invoked with exactly
the prompt, model="auto" and, for the twelve workflow tools, the
step/step_number/total_steps/next_step_required/findings block, all other
caller keys discarded; in every other such case the arguments reach the
handler unchanged. -/
theorem tools_call_argument_mapping (env : Env) (session : Session) (mid : Json)
    (qp : List (String × String)) (kb : Int) (pf : List (String × Json))
    (afs : List (String × Json))
    (hargs : (pf.lookup "arguments").getD (Json.obj []) = Json.obj afs) :
    (∀ pv, afs.lookup "prompt" = some pv →
        jsonEqStr (pf.lookup "name") "listmodels" = false →
        jsonEqStr (pf.lookup "name") "version" = false →
        tryBody env session (some (Json.str "tools/call")) mid (Json.obj pf) qp kb =
          callOutcome env session mid (pf.lookup "name")
            (zenMappedArguments (pf.lookup "name") pv)) ∧
    ((afs.lookup "prompt" = none ∨ jsonEqStr (pf.lookup "name") "listmodels" = true ∨
        jsonEqStr (pf.lookup "name") "version" = true) →
      tryBody env session (some (Json.str "tools/call")) mid (Json.obj pf) qp kb =
        callOutcome env session mid (pf.lookup "name") (Json.obj afs)) := by
  rw [tryBody_tools_call, hargs]
  constructor
  · intro pv hpv h1 h2
    simp [pyInOp, pySubscript, lookup_any_key, hpv, h1, h2]
  · intro h
    rcases h with h | h | h
    · simp [pyInOp, lookup_any_key, h]
    · simp [pyInOp, h]
    · simp [pyInOp, h]

/-- Witness for C6: a chat call with a prompt and an extra argument is
mapped to exactly prompt plus model="auto". -/
theorem tools_call_argument_mapping_witness :
    tryBody trivEnv [] (some (Json.str "tools/call")) (Json.num 1)
        (Json.obj [("name", Json.str "chat"),
                   ("arguments", Json.obj [("prompt", Json.str "hello"),
                                           ("temperature", Json.num 1)])])
        [] 20 =
      callOutcome trivEnv [] (Json.num 1) (some (Json.str "chat"))
        (zenMappedArguments (some (Json.str "chat")) (Json.str "hello")) :=
  (tools_call_argument_mapping trivEnv [] (Json.num 1) [] 20
      [("name", Json.str "chat"),
       ("arguments", Json.obj [("prompt", Json.str "hello"), ("temperature", Json.num 1)])]
      [("prompt", Json.str "hello"), ("temperature", Json.num 1)] rfl).1
    (Json.str "hello") rfl (by decide) (by decide)

/-- Counterexample for C6: with arguments that are not a dict (the int
42), the `in` test raises TypeError and a -32000 error frame is yielded,
so the arguments are not passed to the tool handler (which, here, would
have produced a content frame). -/
theorem tools_call_argument_mapping_counterexample :
    handleMcpMessage trivEnv []
        (Json.obj [("method", Json.str "tools/call"), ("id", Json.num 1),
                   ("params", Json.obj [("name", Json.str "chat"),
                                        ("arguments", Json.num 42)])])
        [] 20 =
      .ok ([errorFrame (Json.num 1) (-32000) "argument of type 'int' is not iterable"], []) ∧
    handleMcpMessage trivEnv []
        (Json.obj [("method", Json.str "tools/call"), ("id", Json.num 1),
                   ("params", Json.obj [("name", Json.str "chat"),
                                        ("arguments", Json.num 42)])])
        [] 20 ≠
      .ok ([respFrame (Json.num 1) (Json.obj [("content", Json.arr [])])], []) := by
  refine ⟨rfl, ?_⟩
  intro h
  rw [show handleMcpMessage trivEnv []
        (Json.obj [("method", Json.str "tools/call"), ("id", Json.num 1),
                   ("params", Json.obj [("name", Json.str "chat"),
                                        ("arguments", Json.num 42)])])
        [] 20 =
      .ok ([errorFrame (Json.num 1) (-32000) "argument of type 'int' is not iterable"], [])
    from rfl] at h
  exact absurd h (by simp [errorFrame, respFrame])

theorem lookup_mem {α : Type} (l : List (String × α)) (k : String) (v : α)
    (h : l.lookup k = some v) : (k, v) ∈ l := by
  induction l with
  | nil => simp [List.lookup] at h
  | cons kv t ih =>
      obtain ⟨k2, v2⟩ := kv
      by_cases hk : k = k2
      · subst hk
        simp [List.lookup] at h
        subst h
        exact List.mem_cons_self _ _
      · have hne : (k == k2) = false := beq_eq_false_iff_ne.mpr hk
        rw [List.lookup, hne] at h
        exact List.mem_cons_of_mem _ (ih h)

theorem lookup_listSet_self {α : Type} (l : List (String × α)) (k : String) (v : α) :
    (listSet l k v).lookup k = some v := by
  induction l with
  | nil => simp [listSet, List.lookup]
  | cons kv t ih =>
      obtain ⟨k2, v2⟩ := kv
      by_cases h : k2 = k
      · subst h
        simp [listSet, List.lookup]
      · have hne : (k == k2) = false := beq_eq_false_iff_ne.mpr fun hh => h hh.symm
        simp [listSet, h, List.lookup, hne, ih]

theorem mem_listSet {α : Type} (l : List (String × α)) (k : String) (v : α) :
    ∀ p ∈ listSet l k v, p ∈ l ∨ p = (k, v) := by
  induction l with
  | nil =>
      intro p hp
      simp [listSet] at hp
      exact Or.inr hp
  | cons kv t ih =>
      obtain ⟨k2, v2⟩ := kv
      intro p hp
      by_cases h : k2 = k
      · subst h
        simp only [listSet, if_pos rfl] at hp
        rcases List.mem_cons.mp hp with rfl | hp
        · exact Or.inr rfl
        · exact Or.inl (List.mem_cons_of_mem _ hp)
      · simp only [listSet, if_neg h] at hp
        rcases List.mem_cons.mp hp with rfl | hp
        · exact Or.inl (List.mem_cons_self _ _)
        · rcases ih p hp with h2 | h2
          · exact Or.inl (List.mem_cons_of_mem _ h2)
          · exact Or.inr h2

theorem tryBody_session_init (env : Env) (session : Session) (method : Option Json)
    (mid : Json) (params : Json) (qp : List (String × String)) (kb : Int)
    (h : methodIs method "initialize" = true) :
    tryBody env session method mid params qp kb =
      .ok ([respFrame mid (initResult env.version)],
           listSet session "initialized" (Json.bool true)) := by
  simp [tryBody, h]

theorem tryBody_session_noninit (env : Env) (session : Session) (method : Option Json)
    (mid : Json) (params : Json) (qp : List (String × String)) (kb : Int)
    (h : methodIs method "initialize" = false) :
    ∀ frames s2, tryBody env session method mid params qp kb = .ok (frames, s2) →
      s2 = session := by
  intro frames s2 hok
  unfold tryBody at hok
  rw [if_neg (by simp [h])] at hok
  repeat' (first | split at hok | simp only at hok)
  all_goals
    first
      | exact Except.noConfusion hok
      | (simp only [Except.ok.injEq, Prod.mk.injEq] at hok; exact hok.2.symm)

theorem handleMcp_session_P (env : Env) (session : Session) (body : Json)
    (qp : List (String × String)) (kb : Int)
    (hP : session.lookup "initialized" = some (Json.bool false) ∨
          session.lookup "initialized" = some (Json.bool true)) :
    ∀ frames s2, handleMcpMessage env session body qp kb = .ok (frames, s2) →
      s2.lookup "initialized" = some (Json.bool false) ∨
      s2.lookup "initialized" = some (Json.bool true) := by
  intro frames s2 hok
  cases body with
  | obj fields =>
      unfold handleMcpMessage at hok
      dsimp only at hok
      cases htb : tryBody env session (fields.lookup "method")
          ((fields.lookup "id").getD Json.null)
          ((fields.lookup "params").getD (Json.obj [])) qp kb with
      | ok out =>
          rw [htb] at hok
          simp only [Except.ok.injEq] at hok
          by_cases hinit : methodIs (fields.lookup "method") "initialize" = true
          · have hi := tryBody_session_init env session (fields.lookup "method")
                ((fields.lookup "id").getD Json.null)
                ((fields.lookup "params").getD (Json.obj [])) qp kb hinit
            rw [htb] at hi
            simp only [Except.ok.injEq] at hi
            have hs2 : s2 = listSet session "initialized" (Json.bool true) :=
              (Prod.ext_iff.mp (hok.symm.trans hi)).2
            rw [hs2, lookup_listSet_self]
            exact Or.inr rfl
          · have hnf : methodIs (fields.lookup "method") "initialize" = false :=
              Bool.not_eq_true _ ▸ eq_false_of_ne_true hinit
            have hs := tryBody_session_noninit env session (fields.lookup "method")
                ((fields.lookup "id").getD Json.null)
                ((fields.lookup "params").getD (Json.obj [])) qp kb hnf out.1 out.2
                (by rw [htb])
            have hs2 : s2 = session := by
              rw [hok] at hs
              exact hs
            rw [hs2]
            exact hP
      | error e =>
          rw [htb] at hok
          simp only [Except.ok.injEq, Prod.mk.injEq] at hok
          rw [← hok.2]
          exact hP
  | null => exact absurd hok (by simp [handleMcpMessage])
  | bool b => exact absurd hok (by simp [handleMcpMessage])
  | num n => exact absurd hok (by simp [handleMcpMessage])
  | str s => exact absurd hok (by simp [handleMcpMessage])
  | arr xs => exact absurd hok (by simp [handleMcpMessage])

theorem getOrCreate_inv (st : SessionMap) (hdr : Option String) (freshId : String)
    (ih : ∀ sid d, (sid, d) ∈ st →
        d.lookup "initialized" = some (Json.bool false) ∨
        d.lookup "initialized" = some (Json.bool true)) :
    (∀ sid d, (sid, d) ∈ (getOrCreateSession st hdr freshId).2 →
        d.lookup "initialized" = some (Json.bool false) ∨
        d.lookup "initialized" = some (Json.bool true)) ∧
    (∃ d0, (getOrCreateSession st hdr freshId).2.lookup
          (getOrCreateSession st hdr freshId).1 = some d0 ∧
        (d0.lookup "initialized" = some (Json.bool false) ∨
         d0.lookup "initialized" = some (Json.bool true))) := by
  have hcreated : ∀ sid d, (sid, d) ∈ listSet st freshId [("initialized", Json.bool false)] →
      d.lookup "initialized" = some (Json.bool false) ∨
      d.lookup "initialized" = some (Json.bool true) := by
    intro sid d hm
    rcases mem_listSet st freshId [("initialized", Json.bool false)] (sid, d) hm with h | h
    · exact ih sid d h
    · injection h with h1 h2
      subst h2
      exact Or.inl rfl
  unfold getOrCreateSession
  cases hdr with
  | none =>
      exact ⟨hcreated, ⟨[("initialized", Json.bool false)],
        lookup_listSet_self st freshId _, Or.inl rfl⟩⟩
  | some sid0 =>
      by_cases hknown : (sid0 != "" && (st.lookup sid0).isSome) = true
      · simp only [hknown, if_true]
        refine ⟨ih, ?_⟩
        have h2 : (st.lookup sid0).isSome = true := (Bool.and_eq_true _ _ |>.mp hknown).2
        cases hl : st.lookup sid0 with
        | none => rw [hl] at h2; simp at h2
        | some d0 => exact ⟨d0, rfl, ih sid0 d0 (lookup_mem st sid0 d0 hl)⟩
      · have hkf : (sid0 != "" && (st.lookup sid0).isSome) = false :=
          eq_false_of_ne_true hknown
        simp only [hkf, Bool.false_eq_true, if_false]
        exact ⟨hcreated, ⟨[("initialized", Json.bool false)],
          lookup_listSet_self st freshId _, Or.inl rfl⟩⟩

theorem stepRequest_preserves (env : Env) (freshId : String) (req : HttpRequest)
    (st : SessionMap)
    (ih : ∀ sid d, (sid, d) ∈ st →
        d.lookup "initialized" = some (Json.bool false) ∨
        d.lookup "initialized" = some (Json.bool true)) :
    ∀ sid d, (sid, d) ∈ (stepRequest env freshId req st).2 →
        d.lookup "initialized" = some (Json.bool false) ∨
        d.lookup "initialized" = some (Json.bool true) := by
  intro sid d hm
  unfold stepRequest at hm
  by_cases hacc : acceptHeaderOk req.accept = true
  · simp only [hacc, Bool.not_true, Bool.false_eq_true, if_false] at hm
    obtain ⟨hinv1, d0, hlk, hP0⟩ := getOrCreate_inv st req.mcpSessionId freshId ih
    rcases hgoc : getOrCreateSession st req.mcpSessionId freshId with ⟨sid2, sessions1⟩
    rw [hgoc] at hinv1 hlk hm
    dsimp only at hinv1 hlk hm
    cases hb : req.body with
    | none =>
        rw [hb] at hm
        dsimp only at hm
        exact hinv1 sid d hm
    | some body =>
        rw [hb] at hm
        dsimp only at hm
        rw [hlk] at hm
        dsimp only [Option.getD] at hm
        cases hh : handleMcpMessage env d0 body req.queryParams
            (chunkSizeKbOf env.pyInt req.queryParams) with
        | error e =>
            rw [hh] at hm
            dsimp only [streamOutcome] at hm
            exact hinv1 sid d hm
        | ok out =>
            obtain ⟨frames2, s2⟩ := out
            rw [hh] at hm
            dsimp only [streamOutcome] at hm
            have hPs2 := handleMcp_session_P env d0 body req.queryParams
                (chunkSizeKbOf env.pyInt req.queryParams) hP0 frames2 s2 hh
            rcases mem_listSet sessions1 sid2 s2 (sid, d) hm with h | h
            · exact hinv1 sid d h
            · injection h with h1 h2
              subst h2
              exact hPs2
  · have hf : acceptHeaderOk req.accept = false := eq_false_of_ne_true hacc
    simp only [hf, Bool.not_false, if_true] at hm
    exact ih sid d hm

/-- C7: in every session-map state reachable by any sequence of /mcp
requests, each stored session dictionary maps "initialized" to a boolean;
a freshly created session carries initialized=False; handling any method
other than initialize returns the session unchanged; and handling
initialize is exactly the in-place update of "initialized" to True. -/
theorem session_map_invariant :
    (∀ st, Reachable st → ∀ sid d, (sid, d) ∈ st →
        d.lookup "initialized" = some (Json.bool false) ∨
        d.lookup "initialized" = some (Json.bool true)) ∧
    (∀ st freshId, getOrCreateSession st none freshId =
        (freshId, listSet st freshId [("initialized", Json.bool false)])) ∧
    (∀ env session fields qp kb,
        methodIs (fields.lookup "method") "initialize" = false →
        sessionAfter (handleMcpMessage env session (Json.obj fields) qp kb) session =
          session) ∧
    (∀ env session fields qp kb,
        methodIs (fields.lookup "method") "initialize" = true →
        sessionAfter (handleMcpMessage env session (Json.obj fields) qp kb) session =
          listSet session "initialized" (Json.bool true)) := by
  refine ⟨?_, fun st f => rfl, ?_, ?_⟩
  · intro st hr
    induction hr with
    | init => intro sid d hm; simp at hm
    | step env freshId req st0 hr0 ih => exact stepRequest_preserves env freshId req st0 ih
  · intro env session fields qp kb h
    cases htb : tryBody env session (fields.lookup "method")
        ((fields.lookup "id").getD Json.null)
        ((fields.lookup "params").getD (Json.obj [])) qp kb with
    | ok out =>
        have hs := tryBody_session_noninit env session (fields.lookup "method")
            ((fields.lookup "id").getD Json.null)
            ((fields.lookup "params").getD (Json.obj [])) qp kb h out.1 out.2
            (by rw [htb])
        simp [handleMcpMessage, htb, sessionAfter, hs]
    | error e => simp [handleMcpMessage, htb, sessionAfter]
  · intro env session fields qp kb h
    have hi := tryBody_session_init env session (fields.lookup "method")
        ((fields.lookup "id").getD Json.null)
        ((fields.lookup "params").getD (Json.obj [])) qp kb h
    simp [handleMcpMessage, hi, sessionAfter]

/-- Witness for C7: ping leaves a session untouched; the initialize
handler flips the flag of a concrete session to True. -/
theorem session_map_invariant_witness :
    sessionAfter (handleMcpMessage trivEnv [("initialized", Json.bool false)]
        (Json.obj [("method", Json.str "ping"), ("id", Json.num 1)]) [] 20)
        [("initialized", Json.bool false)] = [("initialized", Json.bool false)] ∧
    sessionAfter (handleMcpMessage trivEnv [("initialized", Json.bool false)]
        (Json.obj [("method", Json.str "initialize"), ("id", Json.num 1)]) [] 20)
        [("initialized", Json.bool false)] =
      listSet [("initialized", Json.bool false)] "initialized" (Json.bool true) :=
  ⟨session_map_invariant.2.2.1 trivEnv [("initialized", Json.bool false)]
      [("method", Json.str "ping"), ("id", Json.num 1)] [] 20 (by decide),
   session_map_invariant.2.2.2 trivEnv [("initialized", Json.bool false)]
      [("method", Json.str "initialize"), ("id", Json.num 1)] [] 20 (by decide)⟩

/-- Witness for C5: a concrete one-tool list produces one chunk carrying
jsonrpc 2.0, the message id, and a non-empty tools array. -/
theorem chunk_tools_response_correct_witness :
    jsonGet (chunkResponse (Json.num 1) [Json.obj [("name", Json.str "chat")]]) "jsonrpc" =
        some (Json.str "2.0") ∧
    jsonGet (chunkResponse (Json.num 1) [Json.obj [("name", Json.str "chat")]]) "id" =
        some (Json.num 1) ∧
    chunkResponse (Json.num 1) [Json.obj [("name", Json.str "chat")]] =
      chunkResponse (Json.num 1)
        (chunkResultTools (chunkResponse (Json.num 1) [Json.obj [("name", Json.str "chat")]])) ∧
    chunkResultTools (chunkResponse (Json.num 1) [Json.obj [("name", Json.str "chat")]]) ≠ [] :=
  (chunk_tools_response_correct [ChunkInput.dict (Json.obj [("name", Json.str "chat")])]
      (Json.num 1) 20).2
    (chunkResponse (Json.num 1) [Json.obj [("name", Json.str "chat")]])
    (by rw [show chunkToolsResponse [ChunkInput.dict (Json.obj [("name", Json.str "chat")])]
            (Json.num 1) 20 =
          [chunkResponse (Json.num 1) [Json.obj [("name", Json.str "chat")]]] from rfl]
        exact List.mem_singleton_self _)

/-- Witness for C10: with an unrestricted service, the alias "perplexity"
validates (it resolves to the supported model sonar). -/
theorem validate_iff_get_capabilities_witness :
    validate_model_name (fun _ _ => true) "perplexity" = true :=
  (validate_iff_get_capabilities (fun _ _ => true) "perplexity").2.mpr
    (by exact ⟨rfl, rfl⟩)

end ZenMCP
